import Mathlib

/-!
Verification of the bloom-map raster-to-GeoJSON pipeline.

This file embeds the two source files of the repository:

* `data_processor.py` — reads a multi-band NDVI GeoTIFF, scales it by
  `SCALE_FACTOR`, takes the per-pixel maximum over the time axis, thresholds
  at `bloom_threshold = 0.80`, polygonizes the boolean mask with
  `rasterio.features.shapes` (4-connected regions of equal raster value under
  the mask), builds one GeoJSON Point feature per region, and writes the
  FeatureCollection to a fixed output path.
* `server.py` — among other things, a bounded polling loop against the
  AppEEARS task API (`for _ in range(20): ... else: raise HTTPException`).

Numeric raster values are embedded as rationals.  Grids are lists of rows.
File-system effects are embedded as an explicit state (`FSState`): the set of
existing directories and the content of the single output file.  The
geometry/centroid of each region is not modelled: no property under scrutiny
concerns coordinates, only region counts, the `ndvi_peak` property, logging
and the file-system effects.
-/

namespace BloomMap

/-- A pixel position: (row index, column index). -/
abbrev Cell := Nat × Nat

/-- A 2-D grid, stored as a list of rows. -/
abbrev Grid (α : Type) := List (List α)

/-- Read a grid at a cell, with a default value out of bounds
(numpy arrays are rectangular; the default is never hit in bounds). -/
def mgetD {α : Type} (d : α) (g : Grid α) (p : Cell) : α :=
  (g.getD p.1 []).getD p.2 d

/-- Boolean-grid getter, defaulting to `false` out of bounds. -/
def mgetB (m : Grid Bool) (p : Cell) : Bool := mgetD false m p

/-- Rational-grid getter, defaulting to `0` out of bounds. -/
def mgetQ (g : Grid ℚ) (p : Cell) : ℚ := mgetD 0 g p

/-- Integer-grid getter, defaulting to `0` out of bounds. -/
def mgetZ (g : Grid Int) (p : Cell) : Int := mgetD 0 g p

/-- Cell `p` is inside the bounds of grid `g`. -/
def InB {α : Type} (g : Grid α) (p : Cell) : Prop :=
  p.1 < g.length ∧ p.2 < (g.getD p.1 []).length

instance {α : Type} (g : Grid α) (p : Cell) : Decidable (InB g p) := by
  unfold InB; infer_instance

/-! ## Constants of `data_processor.py` -/

/-- Output path constant `OUTPUT_FILE` of the script. -/
def OUTPUT_FILE : String :=
  "./niyaabraham06/bloom-map/bloom-map-69692155a40f0e80eead89e14a3e3660f418b532/data/bloom_phenology.json"

/-- The parent directory of `OUTPUT_FILE` (used by the file-system model:
`open(OUTPUT_FILE, 'w')` succeeds exactly when this directory exists). -/
def OUTPUT_DIR : String :=
  "./niyaabraham06/bloom-map/bloom-map-69692155a40f0e80eead89e14a3e3660f418b532/data"

/-- Input path constant `RAW_NDVI_FILE` of the script. -/
def RAW_NDVI_FILE : String :=
  "./niyaabraham06/bloom-map/bloom-map-69692155a40f0e80eead89e14a3e3660f418b532/data/ndvi_series.tif"

/-- `SCALE_FACTOR = 10000.0`. -/
def SCALE_FACTOR : ℚ := 10000

/-- `bloom_threshold = 0.80`. -/
def bloom_threshold : ℚ := 80 / 100

/-! ## Temporal reducer and threshold classifier -/

/-- Element-wise maximum of two 2-D grids (`np.maximum` on rectangles of
identical shape; `zipWith` truncates at the shorter list, which never happens
for raster bands of identical spatial dimensions). -/
def max2D (a b : Grid ℚ) : Grid ℚ :=
  List.zipWith (fun ra rb => List.zipWith max ra rb) a b

/-- `np.amax(stack, axis=0)`: per-pixel maximum over the time axis. -/
def amax0 : List (Grid ℚ) → Grid ℚ
  | [] => []
  | s :: rest => rest.foldl max2D s

/-- Divide every value of a grid by `s` (`array / SCALE_FACTOR`). -/
def scaleGrid (s : ℚ) (g : Grid ℚ) : Grid ℚ :=
  g.map (fun row => row.map (fun v => v / s))

/-- `max_ndvi = np.amax(ndvi_array / SCALE_FACTOR, axis=0)`. -/
def max_ndvi (stack : List (Grid ℚ)) : Grid ℚ :=
  amax0 (stack.map (scaleGrid SCALE_FACTOR))

/-- `grid >= T` element-wise: the threshold classifier
(`max_ndvi >= bloom_threshold`), parametrized by the threshold. -/
def bloomMaskOf (g : Grid ℚ) (T : ℚ) : Grid Bool :=
  g.map (fun row => row.map (fun v => decide (T ≤ v)))

/-- `blooming_pixels = max_ndvi >= bloom_threshold`. -/
def blooming_pixels (stack : List (Grid ℚ)) : Grid Bool :=
  bloomMaskOf (max_ndvi stack) bloom_threshold

/-- `blooming_pixels.astype(np.int16)`. -/
def boolToI (b : Bool) : Int := if b then 1 else 0

/-- The int16 cast of a boolean mask, as passed to `shapes`. -/
def maskInt (m : Grid Bool) : Grid Int := m.map (fun row => row.map boolToI)

/-! ## Model of `rasterio.features.shapes`

`shapes(raster, mask=mask)` yields one (geometry, value) pair per maximal
4-connected region of mask-true pixels sharing the same raster value.  We
model a region as the list of its cells, computed by an iterated
neighbourhood-closure (flood fill) over the in-bounds cells of the mask. -/

/-- 4-connectivity: edge-adjacent cells. -/
def Adj (p q : Cell) : Prop :=
  (p.1 = q.1 ∧ (p.2 + 1 = q.2 ∨ q.2 + 1 = p.2)) ∨
  (p.2 = q.2 ∧ (p.1 + 1 = q.1 ∨ q.1 + 1 = p.1))

instance (p q : Cell) : Decidable (Adj p q) := by
  unfold Adj; infer_instance

/-- One step of region growth in `shapes`: `p` and `q` are edge-adjacent,
both under the mask, and carry the same raster value. -/
def StepRM (r : Grid Int) (m : Grid Bool) (p q : Cell) : Prop :=
  Adj p q ∧ mgetB m p = true ∧ mgetB m q = true ∧ mgetZ r p = mgetZ r q

instance (r : Grid Int) (m : Grid Bool) (p q : Cell) : Decidable (StepRM r m p q) := by
  unfold StepRM; infer_instance

/-- Pixels connected through a chain of `StepRM` steps. -/
def ReachRM (r : Grid Int) (m : Grid Bool) (p q : Cell) : Prop :=
  Relation.ReflTransGen (StepRM r m) p q

/-- All in-bounds cells of a grid, in row-major order (the scan order of the
polygonizer). -/
def allCells (m : Grid Bool) : List Cell :=
  (List.range m.length).flatMap
    (fun i => (List.range (m.getD i []).length).map (fun j => (i, j)))

/-- A cell gets added to the region being grown when it is new, under the
mask, and one `StepRM` step away from a cell already in the region. -/
def addCond (r : Grid Int) (m : Grid Bool) (cur : List Cell) (q : Cell) : Prop :=
  q ∉ cur ∧ mgetB m q = true ∧ ∃ p ∈ cur, StepRM r m p q

instance (r : Grid Int) (m : Grid Bool) (cur : List Cell) (q : Cell) :
    Decidable (addCond r m cur q) := by
  unfold addCond; infer_instance

/-- One flood-fill sweep: append every addable cell. -/
def closeStep (r : Grid Int) (m : Grid Bool) (cur : List Cell) : List Cell :=
  cur ++ (allCells m).filter (fun q => decide (addCond r m cur q))

/-- Iterate the flood-fill sweep. -/
def closeIter (r : Grid Int) (m : Grid Bool) : Nat → List Cell → List Cell
  | 0, cur => cur
  | n + 1, cur => closeIter r m n (closeStep r m cur)

/-- The region of the polygonizer containing seed `p`: the flood-fill closure
of `{p}` (the cell count of the grid bounds the number of sweeps needed). -/
def component (r : Grid Int) (m : Grid Bool) (p : Cell) : List Cell :=
  closeIter r m (allCells m).length [p]

/-- Scan the cells in order; start a fresh region at every mask-true cell not
yet covered by an earlier region. -/
def shapesAux (r : Grid Int) (m : Grid Bool) : List Cell → List (List Cell) → List (List Cell)
  | [], acc => acc.reverse
  | q :: rest, acc =>
    if mgetB m q = true ∧ ∀ c ∈ acc, q ∉ c then
      shapesAux r m rest (component r m q :: acc)
    else
      shapesAux r m rest acc

/-- Model of `rasterio.features.shapes(raster, mask=mask)`: the list of
(region, raster value) pairs, one per 4-connected region of mask-true pixels
of equal raster value. -/
def shapes (r : Grid Int) (m : Grid Bool) : List (List Cell × Int) :=
  (shapesAux r m (allCells m) []).map (fun c => (c, mgetZ r (c.headD (0, 0))))

/-! ## Feature builder -/

/-- A GeoJSON Point feature, restricted to its property set.  The point
coordinates (the region centroid) are not modelled; no verified property
concerns them. -/
structure Feature where
  name : String
  intensity : String
  date : String
  species_proxy : String
  ndvi_peak : ℚ
deriving DecidableEq

/-- A GeoJSON FeatureCollection. -/
structure FeatureCollection where
  features : List Feature
deriving DecidableEq

/-- Python `round(val, 2)` on the (integral) region values that occur here. -/
def round2 (q : ℚ) : ℚ := (round (q * 100) : ℤ) / 100

/-- The feature built for one region (`val` is the value yielded by
`shapes`). -/
def mkFeature (val : Int) : Feature :=
  { name := "High Bloom Zone"
    intensity := "Very High"
    date := "2024 Bloom Period Peak"
    species_proxy := "Generic Vegetation Bloom"
    ndvi_peak := round2 (val : ℚ) }

/-- The feature-building loop over the output of `shapes`, applied as the
source does: the raster handed to `shapes` is the int16 cast of the mask. -/
def featuresOfMask (m : Grid Bool) : List Feature :=
  (shapes (maskInt m) m).map (fun gv => mkFeature gv.2)

/-- The regions found by the polygonizer on a mask (the geometry part of
`shapes`). -/
def regions (m : Grid Bool) : List (List Cell) :=
  shapesAux (maskInt m) m (allCells m) []

/-! ## The full `calculate_bloom_proxy` run -/

/-- The outcome of `rasterio.open` + `src.read()`: the raster stack on
success, `ioError` for `rasterio.RasterioIOError`, `otherError` for any other
exception (with its message). -/
inductive ReadResult where
  | ok : List (Grid ℚ) → ReadResult
  | ioError : ReadResult
  | otherError : String → ReadResult

/-- The hard-coded fallback FeatureCollection of the `RasterioIOError`
handler. -/
def mockCollection : FeatureCollection :=
  ⟨[{ name := "Midwest Grassland Peak (Mock)"
      intensity := "High"
      date := "2025-05-15"
      species_proxy := "Grass/Cereal Crop Bloom"
      ndvi_peak := 85 / 100 }]⟩

/-- `calculate_bloom_proxy()`: returns the FeatureCollection (or `none` for
the generic exception handler) together with the list of printed lines. -/
def calculate_bloom_proxy (input : ReadResult) : Option FeatureCollection × List String :=
  let startMsg := "Starting processing using raw file: " ++ RAW_NDVI_FILE ++ "..."
  match input with
  | .ok stack =>
    let feats := featuresOfMask (blooming_pixels stack)
    (some ⟨feats⟩,
      [startMsg,
       "Detected " ++ toString feats.length ++ " potential bloom zones (GeoJSON points)."])
  | .ioError =>
    (some mockCollection,
      [startMsg,
       "ERROR: Could not find or open the raw data file at: " ++ RAW_NDVI_FILE
         ++ ". Using mock data fallback."])
  | .otherError e =>
    (none, [startMsg, "An unexpected error occurred during processing: " ++ e])

/-! ## Writer (`save_to_geojson`) and the file-system model -/

/-- The file-system state visible to the writer: the set of existing
directories and the content of the output file (`none` = file absent). -/
structure FSState where
  dirs : List String
  outFile : Option String
deriving DecidableEq

/-- Render a rational (model of JSON number output). -/
def qToString (q : ℚ) : String := toString q.num ++ "/" ++ toString q.den

/-- Model of `json.dump` on one feature. -/
def featureJson (f : Feature) : String :=
  "\x7b\"type\": \"Feature\", \"geometry\": \x7b\"type\": \"Point\"\x7d, " ++
  "\"properties\": \x7b\"name\": \"" ++ f.name ++ "\", \"intensity\": \"" ++
  f.intensity ++ "\", \"date\": \"" ++ f.date ++ "\", \"species_proxy\": \"" ++
  f.species_proxy ++ "\", \"ndvi_peak\": " ++ qToString f.ndvi_peak ++ "\x7d\x7d"

/-- Model of `json.dump` on the whole FeatureCollection. -/
def serializeFC (d : FeatureCollection) : String :=
  "\x7b\"type\": \"FeatureCollection\", \"features\": [" ++
  String.intercalate ", " (d.features.map featureJson) ++ "]\x7d"

/-- `save_to_geojson(geojson_data)`.  `dumpOk` says whether `json.dump`
succeeds; `partialContent` is whatever prefix a failing dump had flushed
before raising (opening with mode `'w'` truncates the file first, so on a
dump failure the file holds only that prefix).  `open` raises
`FileNotFoundError` (caught by the `except`) when the parent directory of
`OUTPUT_FILE` does not exist; the function never creates directories.
Returns the new file-system state and the printed line. -/
def save_to_geojson (fs : FSState) (dumpOk : Bool) (partialContent : String)
    (data : Option FeatureCollection) : FSState × String :=
  match data with
  | some d =>
    if d.features = [] then
      (fs, "Data processing resulted in empty or invalid data. Skipping save.")
    else if OUTPUT_DIR ∈ fs.dirs then
      if dumpOk then
        ({ fs with outFile := some (serializeFC d) },
         "Successfully saved bloom data to " ++ OUTPUT_FILE)
      else
        ({ fs with outFile := some partialContent },
         "ERROR: Failed to save GeoJSON file")
    else
      (fs, "ERROR: Failed to save GeoJSON file")
  | none =>
    (fs, "Data processing resulted in empty or invalid data. Skipping save.")

/-- The `__main__` block: process, then save. -/
def runPipeline (input : ReadResult) (fs : FSState) (dumpOk : Bool)
    (partialContent : String) : (Option FeatureCollection × List String) × (FSState × String) :=
  let processed := calculate_bloom_proxy input
  (processed, save_to_geojson fs dumpOk partialContent processed.1)

/-! ## Spec-side comparator for the per-region peak (C3)

Refinement comparator, following the spec's words: "the region's actual
per-region peak value from the Peak Grid". -/

/-- The actual peak of a region: the maximum Peak-Grid value over the
region's cells. -/
def specRegionPeak (g : Grid ℚ) (cells : List Cell) : ℚ :=
  match cells with
  | [] => 0
  | c :: rest => rest.foldl (fun a x => max a (mgetQ g x)) (mgetQ g c)

/-! ## Model of the polling loop of `server.py` (`api_ndvi`, step 3)

`statuses i` is the status string returned by the `i`-th status request.
The loop body sleeps 3 seconds after every check that is not `"done"`;
after 20 unsuccessful checks the `for ... else` raises
`HTTPException(500, "Task not completed in time")`. -/

/-- Result of the polling phase: the HTTP error raised, or normal exit. -/
inductive PollOutcome where
  | completed : PollOutcome
  | httpError : Nat → String → PollOutcome
deriving DecidableEq

/-- One iteration bundle: checks made so far, seconds slept, outcome. -/
structure PollStats where
  checks : Nat
  sleptSeconds : Nat
  outcome : PollOutcome
deriving DecidableEq

/-- The loop `for _ in range(n): ... else: raise`, polling from attempt
index `i`. -/
def pollAux (statuses : Nat → String) : Nat → Nat → PollStats
  | 0, _ => { checks := 0, sleptSeconds := 0, outcome := .httpError 500 "Task not completed in time" }
  | n + 1, i =>
    if statuses i = "done" then
      { checks := 1, sleptSeconds := 0, outcome := .completed }
    else
      { checks := (pollAux statuses n (i + 1)).checks + 1,
        sleptSeconds := (pollAux statuses n (i + 1)).sleptSeconds + 3,
        outcome := (pollAux statuses n (i + 1)).outcome }

/-- Step 3 of `api_ndvi`: `for _ in range(20)` polling loop. -/
def pollTask (statuses : Nat → String) : PollStats :=
  pollAux statuses 20 0

/-! ## Getter lemmas -/

/-- `getD` through `map`, when the default is preserved by the function. -/
lemma getD_map_of_default {α β : Type} (f : α → β) (d : α) (l : List α) (n : Nat) :
    (l.map f).getD n (f d) = f (l.getD n d) := by
  simp only [List.getD_eq_getElem?_getD, List.getElem?_map]
  cases l[n]? <;> simp

/-- `getD` through `map` at an in-bounds index (any defaults). -/
lemma getD_map_of_lt {α β : Type} (f : α → β) (dα : α) (dβ : β) (l : List α) (n : Nat)
    (h : n < l.length) : (l.map f).getD n dβ = f (l.getD n dα) := by
  rw [List.getD_eq_getElem?_getD, List.getD_eq_getElem?_getD, List.getElem?_map,
      List.getElem?_eq_getElem h]
  simp

/-- A mask-true cell is in bounds. -/
lemma InB_of_mgetB {m : Grid Bool} {p : Cell} (h : mgetB m p = true) : InB m p := by
  unfold mgetB mgetD at h
  unfold InB
  constructor
  · by_contra hlt
    push_neg at hlt
    rw [List.getD_eq_default _ _ hlt] at h
    rw [List.getD_eq_default _ _ (Nat.zero_le p.2)] at h
    cases h
  · by_contra hlt
    push_neg at hlt
    rw [List.getD_eq_default _ _ hlt] at h
    cases h

/-- `allCells` enumerates exactly the in-bounds cells. -/
lemma mem_allCells_iff {m : Grid Bool} {p : Cell} : p ∈ allCells m ↔ InB m p := by
  unfold allCells InB
  simp only [List.mem_flatMap, List.mem_range, List.mem_map]
  constructor
  · rintro ⟨i, hi, j, hj, rfl⟩
    exact ⟨hi, hj⟩
  · rintro ⟨h1, h2⟩
    exact ⟨p.1, h1, p.2, h2, rfl⟩

/-- The int16 cast of the mask reads back as `boolToI` of the mask. -/
lemma mgetZ_maskInt (m : Grid Bool) (p : Cell) :
    mgetZ (maskInt m) p = boolToI (mgetB m p) := by
  unfold mgetZ maskInt mgetB mgetD
  have houter : ((m.map fun row => row.map boolToI).getD p.1 []) =
      (m.getD p.1 []).map boolToI := by
    simpa using getD_map_of_default (fun row => row.map boolToI) [] m p.1
  rw [houter]
  have hinner := getD_map_of_default boolToI false (m.getD p.1 []) p.2
  simpa [boolToI] using hinner

/-- In bounds, the Bloom Mask reads back as the threshold test. -/
lemma mgetB_bloomMaskOf {g : Grid ℚ} {T : ℚ} {p : Cell} (h : InB g p) :
    mgetB (bloomMaskOf g T) p = decide (T ≤ mgetQ g p) := by
  obtain ⟨h1, h2⟩ := h
  unfold mgetB bloomMaskOf mgetQ mgetD
  have houter : ((g.map fun row => row.map fun v => decide (T ≤ v)).getD p.1 []) =
      (g.getD p.1 []).map (fun v => decide (T ≤ v)) := by
    simpa using getD_map_of_default (fun row => row.map fun v => decide (T ≤ v)) [] g p.1
  rw [houter]
  exact getD_map_of_lt (fun v => decide (T ≤ v)) 0 false (g.getD p.1 []) p.2 h2

/-- Scaling commutes with the getter (the default `0` scales to `0`). -/
lemma mgetQ_scaleGrid (s : ℚ) (g : Grid ℚ) (p : Cell) :
    mgetQ (scaleGrid s g) p = mgetQ g p / s := by
  unfold mgetQ scaleGrid mgetD
  have houter : ((g.map fun row => row.map fun v => v / s).getD p.1 []) =
      (g.getD p.1 []).map (fun v => v / s) := by
    simpa using getD_map_of_default (fun row => row.map fun v => v / s) [] g p.1
  rw [houter]
  have hinner := getD_map_of_default (fun v => v / s) 0 (g.getD p.1 []) p.2
  simpa using hinner

/-- Scaling preserves bounds. -/
lemma InB_scaleGrid {s : ℚ} {g : Grid ℚ} {p : Cell} (h : InB g p) :
    InB (scaleGrid s g) p := by
  obtain ⟨h1, h2⟩ := h
  constructor
  · simpa [scaleGrid] using h1
  · unfold scaleGrid
    have houter : ((g.map fun row => row.map fun v => v / s).getD p.1 []) =
        (g.getD p.1 []).map (fun v => v / s) := by
      simpa using getD_map_of_default (fun row => row.map fun v => v / s) [] g p.1
    rw [houter]
    simpa using h2

/-! ## Connectivity: the step relation restricted to the mask -/

/-- Connectivity step on the mask alone ("true pixels that are edge-adjacent"):
what the claims call connectivity of the Bloom Mask. -/
def MaskStep (m : Grid Bool) (p q : Cell) : Prop :=
  Adj p q ∧ mgetB m p = true ∧ mgetB m q = true

/-- 4-connected reachability between true pixels of the mask. -/
def MaskReach (m : Grid Bool) (p q : Cell) : Prop :=
  Relation.ReflTransGen (MaskStep m) p q

/-- On the int16 cast of the mask, the raster-value condition of the
polygonizer is vacuous: the step relations agree. -/
lemma stepRM_maskInt_iff (m : Grid Bool) (p q : Cell) :
    StepRM (maskInt m) m p q ↔ MaskStep m p q := by
  unfold StepRM MaskStep
  constructor
  · rintro ⟨ha, hp, hq, -⟩
    exact ⟨ha, hp, hq⟩
  · rintro ⟨ha, hp, hq⟩
    refine ⟨ha, hp, hq, ?_⟩
    rw [mgetZ_maskInt, mgetZ_maskInt, hp, hq]

lemma reachRM_maskInt_iff (m : Grid Bool) (p q : Cell) :
    ReachRM (maskInt m) m p q ↔ MaskReach m p q := by
  constructor
  · exact Relation.ReflTransGen.mono (fun a b h => (stepRM_maskInt_iff m a b).mp h)
  · exact Relation.ReflTransGen.mono (fun a b h => (stepRM_maskInt_iff m a b).mpr h)

/-- 4-adjacency is symmetric. -/
lemma adj_symm {p q : Cell} (h : Adj p q) : Adj q p := by
  unfold Adj at *
  tauto

/-- The polygonizer's step relation is symmetric. -/
lemma stepRM_symm {r : Grid Int} {m : Grid Bool} : Symmetric (StepRM r m) := by
  rintro p q ⟨ha, hp, hq, hv⟩
  exact ⟨adj_symm ha, hq, hp, hv.symm⟩

lemma reachRM_symm {r : Grid Int} {m : Grid Bool} : Symmetric (ReachRM r m) :=
  Relation.ReflTransGen.symmetric stepRM_symm

/-- Reached cells are under the mask (unless the path is empty). -/
lemma reach_eq_or_true {r : Grid Int} {m : Grid Bool} {p q : Cell}
    (h : ReachRM r m p q) : q = p ∨ mgetB m q = true := by
  induction h with
  | refl => exact Or.inl rfl
  | tail _ hbc _ => exact Or.inr hbc.2.2.1

/-! ## Flood-fill closure: soundness, fixpoint, completeness -/

lemma mem_closeStep_of_mem {r : Grid Int} {m : Grid Bool} {cur : List Cell} {x : Cell}
    (h : x ∈ cur) : x ∈ closeStep r m cur :=
  List.mem_append.mpr (Or.inl h)

lemma mem_closeIter_of_mem {r : Grid Int} {m : Grid Bool} (n : Nat) :
    ∀ (cur : List Cell) (x : Cell), x ∈ cur → x ∈ closeIter r m n cur := by
  induction n with
  | zero => intro cur x h; exact h
  | succ k ih => intro cur x h; exact ih _ _ (mem_closeStep_of_mem h)

/-- Everything the sweep adds is reachable from any root that reaches the
current region. -/
lemma closeStep_sound {r : Grid Int} {m : Grid Bool} {cur : List Cell} {p : Cell}
    (hcur : ∀ x ∈ cur, ReachRM r m p x) :
    ∀ x ∈ closeStep r m cur, ReachRM r m p x := by
  intro x hx
  rcases List.mem_append.mp hx with h | h
  · exact hcur x h
  · have hcond : addCond r m cur x := by
      have := (List.mem_filter.mp h).2
      simpa using this
    obtain ⟨-, -, q, hq, hstep⟩ := hcond
    exact Relation.ReflTransGen.tail (hcur q hq) hstep

lemma closeIter_sound {r : Grid Int} {m : Grid Bool} (n : Nat) :
    ∀ (cur : List Cell) (p : Cell), (∀ x ∈ cur, ReachRM r m p x) →
      ∀ x ∈ closeIter r m n cur, ReachRM r m p x := by
  induction n with
  | zero => intro cur p h x hx; exact h x hx
  | succ k ih => intro cur p h x hx; exact ih _ _ (closeStep_sound h) x hx

/-- Soundness: every cell of `component r m p` is reachable from `p`. -/
lemma component_sound {r : Grid Int} {m : Grid Bool} (p : Cell) :
    ∀ x ∈ component r m p, ReachRM r m p x := by
  apply closeIter_sound
  intro x hx
  have : x = p := by simpa using hx
  rw [this]
  exact Relation.ReflTransGen.refl

lemma closeStep_eq_iff {r : Grid Int} {m : Grid Bool} {cur : List Cell} :
    closeStep r m cur = cur ↔
      (allCells m).filter (fun q => decide (addCond r m cur q)) = [] := by
  unfold closeStep
  exact List.append_right_eq_self

/-- At a fixpoint of the sweep, the region is closed under the step
relation. -/
lemma closed_of_fix {r : Grid Int} {m : Grid Bool} {cur : List Cell}
    (hfix : closeStep r m cur = cur) :
    ∀ q, mgetB m q = true → (∃ p ∈ cur, StepRM r m p q) → q ∈ cur := by
  intro q hq hstep
  by_contra hqc
  have hcond : addCond r m cur q := ⟨hqc, hq, hstep⟩
  have hqall : q ∈ allCells m := mem_allCells_iff.mpr (InB_of_mgetB hq)
  have hnil := closeStep_eq_iff.mp hfix
  rw [List.filter_eq_nil_iff] at hnil
  exact (hnil q hqall) (by simpa using hcond)

lemma closeIter_of_fix {r : Grid Int} {m : Grid Bool} (n : Nat) :
    ∀ cur, closeStep r m cur = cur → closeIter r m n cur = cur := by
  induction n with
  | zero => intro cur _; rfl
  | succ k ih =>
    intro cur h
    show closeIter r m k (closeStep r m cur) = cur
    rw [h]
    exact ih cur h

/-- Filter length is monotone in the predicate. -/
lemma filter_length_le {α : Type} (p q : α → Bool) (h : ∀ a, q a = true → p a = true)
    (l : List α) : (l.filter q).length ≤ (l.filter p).length := by
  induction l with
  | nil => simp
  | cons x xs ih =>
    simp only [List.filter_cons]
    by_cases hq : q x = true
    · rw [if_pos hq, if_pos (h x hq)]
      simpa using ih
    · rw [if_neg hq]
      by_cases hp : p x = true
      · rw [if_pos hp]
        calc (xs.filter q).length ≤ (xs.filter p).length := ih
          _ ≤ (x :: xs.filter p).length := by simp
      · rw [if_neg hp]
        exact ih

/-- Filter length is strictly monotone when a witness separates the
predicates. -/
lemma filter_length_lt {α : Type} (p q : α → Bool) (h : ∀ a, q a = true → p a = true)
    (l : List α) (a : α) (ha : a ∈ l) (hap : p a = true) (haq : q a = false) :
    (l.filter q).length < (l.filter p).length := by
  induction l with
  | nil => cases ha
  | cons x xs ih =>
    rcases List.mem_cons.mp ha with rfl | hmem
    · simp only [List.filter_cons]
      rw [if_neg (by simp [haq]), if_pos hap]
      have := filter_length_le p q h xs
      simp only [List.length_cons]
      omega
    · simp only [List.filter_cons]
      by_cases hq : q x = true
      · rw [if_pos hq, if_pos (h x hq)]
        have := ih hmem
        simp only [List.length_cons]
        omega
      · rw [if_neg hq]
        by_cases hp : p x = true
        · rw [if_pos hp]
          have := ih hmem
          simp only [List.length_cons]
          omega
        · rw [if_neg hp]
          exact ih hmem

/-- Cells of the grid not yet absorbed into the region. -/
def countOut (m : Grid Bool) (cur : List Cell) : Nat :=
  ((allCells m).filter (fun x => decide (x ∉ cur))).length

/-- A non-fixpoint sweep strictly shrinks the number of outstanding cells. -/
lemma countOut_lt {r : Grid Int} {m : Grid Bool} {cur : List Cell}
    (hne : closeStep r m cur ≠ cur) :
    countOut m (closeStep r m cur) < countOut m cur := by
  have hfil : (allCells m).filter (fun q => decide (addCond r m cur q)) ≠ [] := by
    intro h0
    exact hne (closeStep_eq_iff.mpr h0)
  obtain ⟨a, ha⟩ := List.exists_mem_of_ne_nil _ hfil
  have hmem := List.mem_filter.mp ha
  have hcond : addCond r m cur a := by simpa using hmem.2
  have haAll : a ∈ allCells m := hmem.1
  have haNot : a ∉ cur := hcond.1
  have haNew : a ∈ closeStep r m cur := List.mem_append.mpr (Or.inr ha)
  unfold countOut
  apply filter_length_lt (fun x => decide (x ∉ cur))
      (fun x => decide (x ∉ closeStep r m cur))
  · intro x hx
    simp only [decide_eq_true_eq] at hx ⊢
    intro hxcur
    exact hx (mem_closeStep_of_mem hxcur)
  · exact haAll
  · simpa using haNot
  · simpa using haNew

/-- After as many sweeps as there are outstanding cells, the sweep is at a
fixpoint. -/
lemma fix_of_countOut_le {r : Grid Int} {m : Grid Bool} (n : Nat) :
    ∀ cur, countOut m cur ≤ n →
      closeStep r m (closeIter r m n cur) = closeIter r m n cur := by
  induction n with
  | zero =>
    intro cur h
    show closeStep r m cur = cur
    rw [closeStep_eq_iff, List.filter_eq_nil_iff]
    intro q hq
    have hqin : q ∈ cur := by
      by_contra hq2
      have hmem : q ∈ (allCells m).filter (fun x => decide (x ∉ cur)) :=
        List.mem_filter.mpr ⟨hq, by simpa using hq2⟩
      have h0 : ((allCells m).filter (fun x => decide (x ∉ cur))).length = 0 :=
        Nat.le_zero.mp h
      rw [List.length_eq_zero] at h0
      rw [h0] at hmem
      cases hmem
    simp only [decide_eq_true_eq]
    intro hcond
    exact hcond.1 hqin
  | succ k ih =>
    intro cur h
    by_cases hfix : closeStep r m cur = cur
    · rw [closeIter_of_fix _ _ hfix]
      exact hfix
    · show closeStep r m (closeIter r m k (closeStep r m cur)) =
        closeIter r m k (closeStep r m cur)
      apply ih
      have := countOut_lt hfix
      omega

/-- The computed region is a fixpoint of the sweep. -/
lemma component_fix {r : Grid Int} {m : Grid Bool} (p : Cell) :
    closeStep r m (component r m p) = component r m p := by
  apply fix_of_countOut_le
  exact List.length_filter_le _ _

/-- Completeness: every cell reachable from `p` is in `component r m p`. -/
lemma component_complete {r : Grid Int} {m : Grid Bool} {p q : Cell}
    (hreach : ReachRM r m p q) : q ∈ component r m p := by
  induction hreach with
  | refl => exact mem_closeIter_of_mem _ _ _ (by simp)
  | tail hab hbc ih =>
    exact closed_of_fix (component_fix p) _ hbc.2.2.1 ⟨_, ih, hbc⟩

/-- The region of a seed is exactly its reachability class. -/
lemma mem_component_iff {r : Grid Int} {m : Grid Bool} {p q : Cell} :
    q ∈ component r m p ↔ ReachRM r m p q :=
  ⟨component_sound p q, component_complete⟩

lemma self_mem_component (r : Grid Int) (m : Grid Bool) (p : Cell) :
    p ∈ component r m p :=
  component_complete Relation.ReflTransGen.refl

/-! ## The region scan (`shapesAux`): partition properties -/

/-- Regions already collected survive the rest of the scan. -/
lemma mem_shapesAux_of_mem_acc (r : Grid Int) (m : Grid Bool) :
    ∀ (cells : List Cell) (acc : List (List Cell)) (c : List Cell),
      c ∈ acc → c ∈ shapesAux r m cells acc := by
  intro cells
  induction cells with
  | nil =>
    intro acc c hc
    rw [shapesAux]
    exact List.mem_reverse.mpr hc
  | cons q rest ih =>
    intro acc c hc
    rw [shapesAux]
    split
    · exact ih _ _ (List.mem_cons_of_mem _ hc)
    · exact ih _ _ hc

/-- Disjointness of two region lists: no shared cell. -/
def DisjointCells (c₁ c₂ : List Cell) : Prop := ∀ x, x ∈ c₁ → x ∉ c₂

/-- Invariant of the scan: the collected regions are seeded components,
pairwise disjoint; after the scan, every mask-true scanned cell is covered. -/
lemma shapesAux_spec (r : Grid Int) (m : Grid Bool) :
    ∀ (cells : List Cell) (acc : List (List Cell)),
      (∀ c ∈ acc, ∃ s, mgetB m s = true ∧ c = component r m s) →
      List.Pairwise DisjointCells acc →
      (∀ c ∈ shapesAux r m cells acc, ∃ s, mgetB m s = true ∧ c = component r m s) ∧
      List.Pairwise DisjointCells (shapesAux r m cells acc) ∧
      (∀ q ∈ cells, mgetB m q = true → ∃ c ∈ shapesAux r m cells acc, q ∈ c) := by
  intro cells
  induction cells with
  | nil =>
    intro acc h1 h2
    rw [shapesAux]
    refine ⟨?_, ?_, ?_⟩
    · intro c hc
      exact h1 c (List.mem_reverse.mp hc)
    · rw [List.pairwise_reverse]
      exact h2.imp (fun hab x hx2 hx1 => hab x hx1 hx2)
    · intro q hq
      cases hq
  | cons q rest ih =>
    intro acc h1 h2
    rw [shapesAux]
    by_cases hg : mgetB m q = true ∧ ∀ c ∈ acc, q ∉ c
    · rw [if_pos hg]
      have h1' : ∀ c ∈ component r m q :: acc, ∃ s, mgetB m s = true ∧ c = component r m s := by
        intro c hc
        rcases List.mem_cons.mp hc with rfl | hc
        · exact ⟨q, hg.1, rfl⟩
        · exact h1 c hc
      have h2' : List.Pairwise DisjointCells (component r m q :: acc) := by
        refine List.Pairwise.cons ?_ h2
        intro c hc x hxq hxc
        obtain ⟨s, -, rfl⟩ := h1 c hc
        have hqx : ReachRM r m q x := component_sound q x hxq
        have hsx : ReachRM r m s x := component_sound s x hxc
        have hsq : ReachRM r m s q := Relation.ReflTransGen.trans hsx (reachRM_symm hqx)
        exact hg.2 _ hc (component_complete hsq)
      obtain ⟨g1, g2, g3⟩ := ih (component r m q :: acc) h1' h2'
      refine ⟨g1, g2, ?_⟩
      intro x hx hxm
      rcases List.mem_cons.mp hx with rfl | hx
      · exact ⟨component r m x,
          mem_shapesAux_of_mem_acc r m rest _ _ (List.mem_cons_self _ _),
          self_mem_component r m x⟩
      · exact g3 x hx hxm
    · rw [if_neg hg]
      obtain ⟨g1, g2, g3⟩ := ih acc h1 h2
      refine ⟨g1, g2, ?_⟩
      intro x hx hxm
      rcases List.mem_cons.mp hx with rfl | hx
      · push_neg at hg
        obtain ⟨c, hc, hxc⟩ := hg hxm
        exact ⟨c, mem_shapesAux_of_mem_acc r m rest _ _ hc, hxc⟩
      · exact g3 x hx hxm

/-- With no mask-true pixel, the scan collects nothing. -/
lemma shapesAux_of_noBloom (r : Grid Int) (m : Grid Bool)
    (hall : ∀ q, mgetB m q = false) :
    ∀ (cells : List Cell) (acc : List (List Cell)),
      shapesAux r m cells acc = acc.reverse := by
  intro cells
  induction cells with
  | nil => intro acc; rw [shapesAux]
  | cons q rest ih =>
    intro acc
    rw [shapesAux, if_neg]
    · exact ih acc
    · rintro ⟨hq, -⟩
      rw [hall q] at hq
      cases hq

/-! ## Temporal reducer: pointwise maximum and commutation with scaling -/

/-- Division by a positive constant is monotone. -/
lemma monotone_divBy {s : ℚ} (hs : 0 < s) : Monotone (fun v : ℚ => v / s) :=
  fun _ _ hxy => (div_le_div_iff_of_pos_right hs).mpr hxy

/-- Row-level: element-wise max commutes with scaling. -/
lemma row_max_scale {s : ℚ} (hs : 0 < s) (ra rb : List ℚ) :
    List.zipWith max (ra.map fun v => v / s) (rb.map fun v => v / s) =
      (List.zipWith max ra rb).map (fun v => v / s) := by
  rw [List.zipWith_map_left, List.zipWith_map_right, List.map_zipWith]
  congr 1
  funext x y
  exact ((monotone_divBy hs).map_max).symm

/-- Grid-level: element-wise max commutes with scaling. -/
lemma max2D_scale {s : ℚ} (hs : 0 < s) (a b : Grid ℚ) :
    max2D (scaleGrid s a) (scaleGrid s b) = scaleGrid s (max2D a b) := by
  unfold max2D scaleGrid
  rw [List.zipWith_map_left, List.zipWith_map_right, List.map_zipWith]
  congr 1
  funext ra rb
  exact row_max_scale hs ra rb

lemma foldl_max2D_scale {s : ℚ} (hs : 0 < s) (rest : List (Grid ℚ)) :
    ∀ a, rest.foldl (fun acc x => max2D acc (scaleGrid s x)) (scaleGrid s a) =
      scaleGrid s (rest.foldl max2D a) := by
  induction rest with
  | nil => intro a; rfl
  | cons b rs ih =>
    intro a
    show rs.foldl _ (max2D (scaleGrid s a) (scaleGrid s b)) = _
    rw [max2D_scale hs]
    exact ih (max2D a b)

/-- Scaling the stack first and then taking the per-pixel maximum equals
scaling the raw per-pixel maximum (positive scale factor). -/
lemma amax0_scale {s : ℚ} (hs : 0 < s) (stack : List (Grid ℚ)) :
    amax0 (stack.map (scaleGrid s)) = scaleGrid s (amax0 stack) := by
  cases stack with
  | nil => simp [amax0, scaleGrid]
  | cons s0 rest =>
    show (rest.map (scaleGrid s)).foldl max2D (scaleGrid s s0) = scaleGrid s (rest.foldl max2D s0)
    rw [List.foldl_map]
    exact foldl_max2D_scale hs rest s0

/-- `getD` through `zipWith` at an index in bounds of both lists, when the
defaults line up. -/
lemma getD_zipWith {α β γ : Type} (f : α → β → γ) (da : α) (db : β) :
    ∀ (l1 : List α) (l2 : List β) (n : Nat), n < l1.length → n < l2.length →
      (List.zipWith f l1 l2).getD n (f da db) = f (l1.getD n da) (l2.getD n db) := by
  intro l1
  induction l1 with
  | nil =>
    intro l2 n h1 _
    simp at h1
  | cons x xs ih =>
    intro l2 n h1 h2
    cases l2 with
    | nil => simp at h2
    | cons y ys =>
      cases n with
      | zero => rfl
      | succ k =>
        show (List.zipWith f xs ys).getD k _ = _
        exact ih ys k (by simpa using h1) (by simpa using h2)

/-- Bounds survive `max2D`. -/
lemma InB_max2D {a b : Grid ℚ} {p : Cell} (ha : InB a p) (hb : InB b p) :
    InB (max2D a b) p := by
  obtain ⟨ha1, ha2⟩ := ha
  obtain ⟨hb1, hb2⟩ := hb
  constructor
  · unfold max2D
    rw [List.length_zipWith]
    omega
  · unfold max2D
    have hrow : (List.zipWith (fun ra rb => List.zipWith max ra rb) a b).getD p.1 [] =
        List.zipWith max (a.getD p.1 []) (b.getD p.1 []) := by
      simpa using getD_zipWith (fun ra rb => List.zipWith max ra rb) [] [] a b p.1 ha1 hb1
    rw [hrow, List.length_zipWith]
    omega

/-- In bounds, `max2D` reads back as the pointwise maximum. -/
lemma mgetQ_max2D {a b : Grid ℚ} {p : Cell} (ha : InB a p) (hb : InB b p) :
    mgetQ (max2D a b) p = max (mgetQ a p) (mgetQ b p) := by
  obtain ⟨ha1, ha2⟩ := ha
  obtain ⟨hb1, hb2⟩ := hb
  unfold mgetQ mgetD max2D
  have hrow : (List.zipWith (fun ra rb => List.zipWith max ra rb) a b).getD p.1 [] =
      List.zipWith max (a.getD p.1 []) (b.getD p.1 []) := by
    simpa using getD_zipWith (fun ra rb => List.zipWith max ra rb) [] [] a b p.1 ha1 hb1
  rw [hrow]
  simpa using getD_zipWith max 0 0 (a.getD p.1 []) (b.getD p.1 []) p.2 ha2 hb2

/-- In bounds, the folded maximum reads back pointwise. -/
lemma mgetQ_foldl_max2D (p : Cell) :
    ∀ (rest : List (Grid ℚ)) (a : Grid ℚ), InB a p → (∀ sl ∈ rest, InB sl p) →
      mgetQ (rest.foldl max2D a) p =
        rest.foldl (fun acc sl => max acc (mgetQ sl p)) (mgetQ a p) := by
  intro rest
  induction rest with
  | nil => intro a _ _; rfl
  | cons b rs ih =>
    intro a ha hrest
    have hb : InB b p := hrest b (by simp)
    show mgetQ (rs.foldl max2D (max2D a b)) p = _
    rw [ih (max2D a b) (InB_max2D ha hb) (fun sl hsl => hrest sl (by simp [hsl]))]
    rw [mgetQ_max2D ha hb]
    rfl

/-! ## Claim theorems -/

/-- C1: for every peak grid `G` and threshold `T`, the Bloom Mask produced by
the Threshold Classifier is true at an in-bounds pixel exactly when the grid
value meets or exceeds `T`, with the boundary value `T` itself included. -/
theorem c1_mask_true_iff_ge_threshold (G : Grid ℚ) (T : ℚ) (p : Cell) (h : InB G p) :
    mgetB (bloomMaskOf G T) p = true ↔ T ≤ mgetQ G p := by
  rw [mgetB_bloomMaskOf h]
  exact decide_eq_true_iff

/-- C1 witness: a pixel exactly equal to the threshold is classified as
bloom. -/
theorem c1_mask_true_iff_ge_threshold_witness :
    mgetB (bloomMaskOf [[(7 : ℚ)]] 7) (0, 0) = true :=
  (c1_mask_true_iff_ge_threshold [[(7 : ℚ)]] 7 (0, 0) (by decide)).mpr (by decide)

/-- With no mask-true pixel at all, the feature list is empty. -/
lemma featuresOfMask_of_noBloom {m : Grid Bool} (hall : ∀ q, mgetB m q = false) :
    featuresOfMask m = [] := by
  unfold featuresOfMask shapes
  rw [shapesAux_of_noBloom _ _ hall]
  rfl

/-- The Bloom Mask of the concrete all-below-threshold raster `[[[0]]]`. -/
lemma mask_eval_zero : blooming_pixels [[[0]]] = [[false]] := by
  simp only [blooming_pixels, max_ndvi, amax0, scaleGrid, SCALE_FACTOR, bloomMaskOf,
    bloom_threshold, List.map_cons, List.map_nil, List.foldl_nil,
    decide_eq_false_iff_not]
  norm_num

/-- C2 counterexample: on a raster where no pixel passes the threshold, the
pipeline returns a FeatureCollection with an empty features list — not "no
result". -/
theorem c2_counterexample :
    (calculate_bloom_proxy (.ok [[[0]]])).1 = some ⟨[]⟩ ∧
    (calculate_bloom_proxy (.ok [[[0]]])).1 ≠ none := by
  have hf : featuresOfMask (blooming_pixels [[[0]]]) = [] := by
    rw [mask_eval_zero]
    decide
  constructor
  · simp [calculate_bloom_proxy, hf]
  · simp [calculate_bloom_proxy]

/-- C2 (amended): for every input raster in which no pixel of the Bloom Mask
is true, the pipeline returns a FeatureCollection with an empty features list
(not `none`), and the writer performs no file write (it leaves the file
system unchanged and reports the skip). -/
theorem c2_empty_mask_empty_collection_no_write (stack : List (Grid ℚ)) (fs : FSState)
    (dumpOk : Bool) (w : String)
    (hall : ∀ q ∈ allCells (blooming_pixels stack), mgetB (blooming_pixels stack) q = false) :
    (calculate_bloom_proxy (.ok stack)).1 = some ⟨[]⟩ ∧
    (save_to_geojson fs dumpOk w (calculate_bloom_proxy (.ok stack)).1).1 = fs ∧
    (save_to_geojson fs dumpOk w (calculate_bloom_proxy (.ok stack)).1).2 =
      "Data processing resulted in empty or invalid data. Skipping save." := by
  have hall' : ∀ q, mgetB (blooming_pixels stack) q = false := by
    intro q
    cases hq : mgetB (blooming_pixels stack) q with
    | false => rfl
    | true =>
      have := hall q (mem_allCells_iff.mpr (InB_of_mgetB hq))
      rw [hq] at this
      cases this
  have hfe : featuresOfMask (blooming_pixels stack) = [] := featuresOfMask_of_noBloom hall'
  have hres : (calculate_bloom_proxy (.ok stack)).1 = some ⟨[]⟩ := by
    simp [calculate_bloom_proxy, hfe]
  refine ⟨hres, ?_, ?_⟩ <;> rw [hres] <;> simp [save_to_geojson]

/-- C2 witness: the concrete all-below-threshold raster `[[[0]]]`. -/
theorem c2_empty_mask_empty_collection_no_write_witness :
    (calculate_bloom_proxy (.ok [[[0]]])).1 = some ⟨[]⟩ ∧
    (save_to_geojson ⟨[], none⟩ true "" (calculate_bloom_proxy (.ok [[[0]]])).1).1 =
      (⟨[], none⟩ : FSState) ∧
    (save_to_geojson ⟨[], none⟩ true "" (calculate_bloom_proxy (.ok [[[0]]])).1).2 =
      "Data processing resulted in empty or invalid data. Skipping save." :=
  c2_empty_mask_empty_collection_no_write [[[0]]] ⟨[], none⟩ true ""
    (by rw [mask_eval_zero]; decide)

/-- The Bloom Mask of the concrete raster used against C3. -/
lemma mask_eval_c3 :
    blooming_pixels [[[8500, 1000], [1000, 1000]]] = [[true, false], [false, false]] := by
  simp only [blooming_pixels, max_ndvi, amax0, scaleGrid, SCALE_FACTOR, bloomMaskOf,
    bloom_threshold, List.map_cons, List.map_nil, List.foldl_nil, List.cons.injEq,
    decide_eq_true_eq, decide_eq_false_iff_not, and_true]
  norm_num

/-- C3: on the raster `[[[8500, 1000], [1000, 1000]]]` the single region is
`[(0,0)]` with actual Peak-Grid maximum `0.85`, yet the emitted feature's
`ndvi_peak` is `1` — the value of the polygonized int16 mask — not the
region's peak: the code contradicts the spec's required behaviour. -/
theorem c3_code_emits_mask_value_not_region_peak :
    ((calculate_bloom_proxy (.ok [[[8500, 1000], [1000, 1000]]])).1.map
        (fun d => d.features.map (fun f => f.ndvi_peak))) = some [1] ∧
    regions (blooming_pixels [[[8500, 1000], [1000, 1000]]]) = [[(0, 0)]] ∧
    specRegionPeak (max_ndvi [[[8500, 1000], [1000, 1000]]]) [(0, 0)] = 85 / 100 ∧
    (1 : ℚ) ≠ 85 / 100 := by
  have hshapes : shapes (maskInt [[true, false], [false, false]]) [[true, false], [false, false]]
      = [([(0, 0)], 1)] := by decide
  have hpeakval : round2 (1 : ℚ) = 1 := by
    rw [round2, round_eq]
    norm_num
  refine ⟨?_, ?_, ?_, by norm_num⟩
  · simp [calculate_bloom_proxy, featuresOfMask, mask_eval_c3, hshapes, mkFeature, hpeakval]
  · rw [mask_eval_c3]
    decide
  · have hmax : max_ndvi [[[8500, 1000], [1000, 1000]]] =
        [[8500 / 10000, 1000 / 10000], [1000 / 10000, 1000 / 10000]] := by
      simp [max_ndvi, amax0, scaleGrid, SCALE_FACTOR]
    show mgetQ (max_ndvi [[[8500, 1000], [1000, 1000]]]) (0, 0) = 85 / 100
    rw [hmax]
    show ((8500 : ℚ) / 10000) = 85 / 100
    norm_num

/-- C5 counterexample: on Peak Grid `[[3000, 1000], [2600, 0]]` with
threshold `2500`, the two true pixels are edge-adjacent (same column,
adjacent rows), so the pipeline does not emit 2 Features. -/
theorem c5_counterexample :
    Adj (0, 0) (1, 0) ∧
    (featuresOfMask (bloomMaskOf [[3000, 1000], [2600, 0]] 2500)).length ≠ 2 := by
  constructor <;> decide

/-- C5 (amended): for Peak Grid `[[3000, 1000], [2600, 0]]` with threshold
`2500`, the Bloom Mask is `[[T,F],[T,F]]`; the two true pixels are
edge-adjacent and form a single 4-connected region, and the pipeline emits
exactly 1 Feature. -/
theorem c5_two_true_pixels_form_one_region :
    bloomMaskOf [[3000, 1000], [2600, 0]] 2500 = [[true, false], [true, false]] ∧
    regions (bloomMaskOf [[3000, 1000], [2600, 0]] 2500) = [[(0, 0), (1, 0)]] ∧
    (featuresOfMask (bloomMaskOf [[3000, 1000], [2600, 0]] 2500)).length = 1 := by
  refine ⟨?_, ?_, ?_⟩ <;> decide

/-- C4: one Feature is emitted per region found by the polygonizer, and the
regions are exactly the 4-connected components of true pixels of the Bloom
Mask: they cover every true pixel, are pairwise disjoint, are nonempty, hold
only true pixels, are mutually connected and are closed under mask
connectivity — hence the Feature count is the number of connected regions,
not the number of true pixels. -/
theorem c4_one_feature_per_connected_region (G : Grid ℚ) (T : ℚ) :
    (featuresOfMask (bloomMaskOf G T)).length = (regions (bloomMaskOf G T)).length ∧
    (∀ p, mgetB (bloomMaskOf G T) p = true → ∃ c ∈ regions (bloomMaskOf G T), p ∈ c) ∧
    List.Pairwise DisjointCells (regions (bloomMaskOf G T)) ∧
    (∀ c ∈ regions (bloomMaskOf G T), ∃ p, p ∈ c) ∧
    (∀ c ∈ regions (bloomMaskOf G T), ∀ p ∈ c, mgetB (bloomMaskOf G T) p = true) ∧
    (∀ c ∈ regions (bloomMaskOf G T), ∀ p ∈ c, ∀ q ∈ c, MaskReach (bloomMaskOf G T) p q) ∧
    (∀ c ∈ regions (bloomMaskOf G T), ∀ p ∈ c, ∀ q, MaskReach (bloomMaskOf G T) p q →
      q ∈ c) := by
  obtain ⟨hseed, hdisj, hcover⟩ :=
    shapesAux_spec (maskInt (bloomMaskOf G T)) (bloomMaskOf G T)
      (allCells (bloomMaskOf G T)) [] (by intro c hc; cases hc) List.Pairwise.nil
  refine ⟨?_, ?_, hdisj, ?_, ?_, ?_, ?_⟩
  · simp [featuresOfMask, shapes, regions]
  · intro p hp
    exact hcover p (mem_allCells_iff.mpr (InB_of_mgetB hp)) hp
  · intro c hc
    obtain ⟨s, hs, rfl⟩ := hseed c hc
    exact ⟨s, self_mem_component _ _ s⟩
  · intro c hc p hpc
    obtain ⟨s, hs, rfl⟩ := hseed c hc
    rcases reach_eq_or_true (component_sound s p hpc) with rfl | h
    · exact hs
    · exact h
  · intro c hc p hpc q hqc
    obtain ⟨s, hs, rfl⟩ := hseed c hc
    have hsp := component_sound s p hpc
    have hsq := component_sound s q hqc
    exact (reachRM_maskInt_iff _ _ _).mp (Relation.ReflTransGen.trans (reachRM_symm hsp) hsq)
  · intro c hc p hpc q hreach
    obtain ⟨s, hs, rfl⟩ := hseed c hc
    have hsp := component_sound s p hpc
    have hpq := (reachRM_maskInt_iff _ _ _).mpr hreach
    exact component_complete (Relation.ReflTransGen.trans hsp hpq)

/-- C4 witness: on a 1×1 grid at the threshold, the true pixel is covered by
a region. -/
theorem c4_one_feature_per_connected_region_witness :
    ∃ c ∈ regions (bloomMaskOf [[(1 : ℚ)]] 1), ((0 : Nat), (0 : Nat)) ∈ c :=
  (c4_one_feature_per_connected_region [[(1 : ℚ)]] 1).2.1 (0, 0) (by decide)

/-- C6 counterexample: with the source file missing, the run does write an
output file (the mock fallback), refuting "writes no output". -/
theorem c6_counterexample :
    (runPipeline .ioError ⟨[OUTPUT_DIR], none⟩ true "").2.1.outFile ≠ none := by
  simp [runPipeline, calculate_bloom_proxy, save_to_geojson, mockCollection]

/-- C6 (amended): when the source raster is missing or unreadable, the run
logs the read error and finishes cleanly (the exception is caught; the model
is a total function), but it substitutes the hard-coded mock
FeatureCollection, which the writer then writes to the output path. -/
theorem c6_ioerror_logs_and_writes_mock (fs : FSState) (w : String)
    (hdir : OUTPUT_DIR ∈ fs.dirs) :
    (calculate_bloom_proxy .ioError).1 = some mockCollection ∧
    ("ERROR: Could not find or open the raw data file at: " ++ RAW_NDVI_FILE ++
        ". Using mock data fallback.") ∈ (calculate_bloom_proxy .ioError).2 ∧
    (runPipeline .ioError fs true w).2.1.outFile = some (serializeFC mockCollection) ∧
    (runPipeline .ioError fs true w).2.2 =
      "Successfully saved bloom data to " ++ OUTPUT_FILE := by
  refine ⟨rfl, by simp [calculate_bloom_proxy], ?_, ?_⟩ <;>
    simp [runPipeline, calculate_bloom_proxy, save_to_geojson, mockCollection, hdir]

/-- C6 witness: concrete file system with the output directory present. -/
theorem c6_ioerror_logs_and_writes_mock_witness :
    (calculate_bloom_proxy .ioError).1 = some mockCollection ∧
    ("ERROR: Could not find or open the raw data file at: " ++ RAW_NDVI_FILE ++
        ". Using mock data fallback.") ∈ (calculate_bloom_proxy .ioError).2 ∧
    (runPipeline .ioError ⟨[OUTPUT_DIR], none⟩ true "").2.1.outFile =
      some (serializeFC mockCollection) ∧
    (runPipeline .ioError ⟨[OUTPUT_DIR], none⟩ true "").2.2 =
      "Successfully saved bloom data to " ++ OUTPUT_FILE :=
  c6_ioerror_logs_and_writes_mock ⟨[OUTPUT_DIR], none⟩ "" (by simp)

/-- C7 counterexample: a failed dump does not leave prior output content
untouched — opening with mode `'w'` has already truncated the file. -/
theorem c7_counterexample :
    (save_to_geojson ⟨[OUTPUT_DIR], some "old"⟩ false "" (some mockCollection)).1.outFile ≠
      some "old" := by
  decide

/-- C7 (amended): if serialization fails, the error is caught and logged, but
opening the output file in write mode has already truncated it: afterwards
the file exists and holds only whatever prefix the failed dump flushed, so
prior content is not preserved (the write is not atomic). -/
theorem c7_failed_dump_truncates_output (fs : FSState) (d : FeatureCollection) (w : String)
    (hne : d.features ≠ []) (hdir : OUTPUT_DIR ∈ fs.dirs) :
    (save_to_geojson fs false w (some d)).1.outFile = some w ∧
    (save_to_geojson fs false w (some d)).2 = "ERROR: Failed to save GeoJSON file" := by
  simp [save_to_geojson, hne, hdir]

/-- C7 witness: prior content "old" is replaced by the truncated file. -/
theorem c7_failed_dump_truncates_output_witness :
    (save_to_geojson ⟨[OUTPUT_DIR], some "old"⟩ false "" (some mockCollection)).1.outFile =
      some "" ∧
    (save_to_geojson ⟨[OUTPUT_DIR], some "old"⟩ false "" (some mockCollection)).2 =
      "ERROR: Failed to save GeoJSON file" :=
  c7_failed_dump_truncates_output ⟨[OUTPUT_DIR], some "old"⟩ mockCollection ""
    (by simp [mockCollection]) (by simp)

/-- C8 counterexample: with the output path's parent directory absent, the
Writer neither creates it nor writes anything — refuting "creates the parent
directories as needed before writing". -/
theorem c8_counterexample :
    (save_to_geojson ⟨[], none⟩ true "" (some mockCollection)).1.outFile = none ∧
    OUTPUT_DIR ∉ (save_to_geojson ⟨[], none⟩ true "" (some mockCollection)).1.dirs := by
  constructor <;> decide

/-- C8 (amended): for every non-empty, non-null FeatureCollection, if the
output path's parent directory exists the Writer writes the full serialized
structure, overwriting any prior content, and never creates directories; if
the parent directory is missing, the write fails, is logged, and the file
system is left unchanged. -/
theorem c8_writer_overwrites_but_no_mkdir (fs : FSState) (d : FeatureCollection) (w : String)
    (hne : d.features ≠ []) :
    (OUTPUT_DIR ∈ fs.dirs →
      (save_to_geojson fs true w (some d)).1.outFile = some (serializeFC d) ∧
      (save_to_geojson fs true w (some d)).1.dirs = fs.dirs ∧
      (save_to_geojson fs true w (some d)).2 =
        "Successfully saved bloom data to " ++ OUTPUT_FILE) ∧
    (OUTPUT_DIR ∉ fs.dirs →
      (save_to_geojson fs true w (some d)).1 = fs ∧
      (save_to_geojson fs true w (some d)).2 = "ERROR: Failed to save GeoJSON file") := by
  constructor
  · intro hdir
    simp [save_to_geojson, hne, hdir]
  · intro hdir
    simp [save_to_geojson, hne, hdir]

/-- C8 witness: a successful overwrite with the parent directory present. -/
theorem c8_writer_overwrites_but_no_mkdir_witness :
    (save_to_geojson ⟨[OUTPUT_DIR], some "old"⟩ true "" (some mockCollection)).1.outFile =
      some (serializeFC mockCollection) ∧
    (save_to_geojson ⟨[OUTPUT_DIR], some "old"⟩ true "" (some mockCollection)).1.dirs =
      (⟨[OUTPUT_DIR], some "old"⟩ : FSState).dirs ∧
    (save_to_geojson ⟨[OUTPUT_DIR], some "old"⟩ true "" (some mockCollection)).2 =
      "Successfully saved bloom data to " ++ OUTPUT_FILE :=
  (c8_writer_overwrites_but_no_mkdir ⟨[OUTPUT_DIR], some "old"⟩ mockCollection ""
    (by simp [mockCollection])).1 (by simp)

/-- C9: the Peak Grid used for classification carries at each in-bounds pixel
the maximum over the time axis of the (scaled) stack, and taking the maximum
after dividing by a positive scale factor yields the same grid — hence the
same Bloom Mask — as scaling the raw per-pixel maximum. -/
theorem c9_peak_pointwise_max_and_scaling_commutes
    (s0 : Grid ℚ) (rest : List (Grid ℚ)) (p : Cell) (s T : ℚ) (hs : 0 < s)
    (h0 : InB s0 p) (hrest : ∀ sl ∈ rest, InB sl p) :
    mgetQ (max_ndvi (s0 :: rest)) p =
      (rest.map (fun sl => mgetQ (scaleGrid SCALE_FACTOR sl) p)).foldl max
        (mgetQ (scaleGrid SCALE_FACTOR s0) p) ∧
    amax0 ((s0 :: rest).map (scaleGrid s)) = scaleGrid s (amax0 (s0 :: rest)) ∧
    bloomMaskOf (amax0 ((s0 :: rest).map (scaleGrid s))) T =
      bloomMaskOf (scaleGrid s (amax0 (s0 :: rest))) T := by
  have hcomm := amax0_scale hs (s0 :: rest)
  refine ⟨?_, hcomm, by rw [hcomm]⟩
  have hb0 : InB (scaleGrid SCALE_FACTOR s0) p := InB_scaleGrid h0
  have hbrest : ∀ sl ∈ rest.map (scaleGrid SCALE_FACTOR), InB sl p := by
    intro sl hsl
    obtain ⟨t, ht, rfl⟩ := List.mem_map.mp hsl
    exact InB_scaleGrid (hrest t ht)
  show mgetQ ((rest.map (scaleGrid SCALE_FACTOR)).foldl max2D (scaleGrid SCALE_FACTOR s0)) p = _
  rw [mgetQ_foldl_max2D p (rest.map (scaleGrid SCALE_FACTOR)) (scaleGrid SCALE_FACTOR s0)
      hb0 hbrest]
  rw [List.foldl_map, List.foldl_map]

/-- C9 witness: a two-band 1×1 stack with the code's scale factor. -/
theorem c9_peak_pointwise_max_and_scaling_commutes_witness :
    mgetQ (max_ndvi ([[(8500 : ℚ)]] :: [[[(9000 : ℚ)]]])) (0, 0) =
      ([[[(9000 : ℚ)]]].map (fun sl => mgetQ (scaleGrid SCALE_FACTOR sl) (0, 0))).foldl max
        (mgetQ (scaleGrid SCALE_FACTOR [[(8500 : ℚ)]]) (0, 0)) ∧
    amax0 (([[(8500 : ℚ)]] :: [[[(9000 : ℚ)]]]).map (scaleGrid 10000)) =
      scaleGrid 10000 (amax0 ([[(8500 : ℚ)]] :: [[[(9000 : ℚ)]]])) ∧
    bloomMaskOf (amax0 (([[(8500 : ℚ)]] :: [[[(9000 : ℚ)]]]).map (scaleGrid 10000))) (4 / 5) =
      bloomMaskOf (scaleGrid 10000 (amax0 ([[(8500 : ℚ)]] :: [[[(9000 : ℚ)]]]))) (4 / 5) :=
  c9_peak_pointwise_max_and_scaling_commutes [[(8500 : ℚ)]] [[[(9000 : ℚ)]]] (0, 0) 10000
    (4 / 5) (by norm_num) (by decide) (by decide)

/-- The polling loop makes at most `n` status checks. -/
lemma pollAux_checks_le (f : Nat → String) :
    ∀ (n i : Nat), (pollAux f n i).checks ≤ n := by
  intro n
  induction n with
  | zero => intro i; exact Nat.le_refl 0
  | succ k ih =>
    intro i
    unfold pollAux
    by_cases h : f i = "done"
    · rw [if_pos h]
      show (1 : Nat) ≤ k + 1
      omega
    · rw [if_neg h]
      show (pollAux f k (i + 1)).checks + 1 ≤ k + 1
      have := ih (i + 1)
      omega

/-- If no status in the window is "done", the loop runs out and raises. -/
lemma pollAux_all_pending (f : Nat → String) :
    ∀ (n i : Nat), (∀ j, i ≤ j → j < i + n → f j ≠ "done") →
      pollAux f n i =
        { checks := n, sleptSeconds := 3 * n,
          outcome := .httpError 500 "Task not completed in time" } := by
  intro n
  induction n with
  | zero => intro i _; rfl
  | succ k ih =>
    intro i h
    unfold pollAux
    rw [if_neg (h i (Nat.le_refl i) (by omega))]
    rw [ih (i + 1) (fun j hj1 hj2 => h j (by omega) (by omega))]
    simp [Nat.mul_succ]

/-- C10: the task-status polling loop performs at most 20 status checks,
sleeping 3 seconds after each unsuccessful check, and if the task never
reports status "done" within those attempts, it terminates by raising
HTTP 500 with detail "Task not completed in time". -/
theorem c10_poll_bounded_raises_500 (statuses : Nat → String)
    (hnone : ∀ i < 20, statuses i ≠ "done") :
    (pollTask statuses).checks ≤ 20 ∧
    (pollTask statuses).checks = 20 ∧
    (pollTask statuses).sleptSeconds = 3 * 20 ∧
    (pollTask statuses).outcome = .httpError 500 "Task not completed in time" := by
  have h := pollAux_all_pending statuses 20 0 (fun j _ hj2 => hnone j (by omega))
  unfold pollTask
  rw [h]
  exact ⟨Nat.le_refl 20, rfl, rfl, rfl⟩

/-- C10 witness: a task that always reports "pending". -/
theorem c10_poll_bounded_raises_500_witness :
    (pollTask fun _ => "pending").checks ≤ 20 ∧
    (pollTask fun _ => "pending").checks = 20 ∧
    (pollTask fun _ => "pending").sleptSeconds = 3 * 20 ∧
    (pollTask fun _ => "pending").outcome = .httpError 500 "Task not completed in time" :=
  c10_poll_bounded_raises_500 (fun _ => "pending")
    (by intro i _; show ("pending" : String) ≠ "done"; decide)

end BloomMap
